import Mathlib

/-
  Verification of the IDR benchmarking tool's core computations.

  The definitions below are a shallow embedding of the repository's code:
  the Supabase/PostgreSQL stored procedure `get_provider_benchmark`
  (schema file), the benchmark API route's service-code analytics
  (`src/app/src/app/api/benchmark/route.ts`), the practice-search route
  (`src/app/src/app/api/practice-search/route.ts`), the client library
  (`src/app/src/lib/benchmarking.ts`, including `generateInsights` and
  `getFilterOptions`), and the dashboard's request validation
  (`runBenchmarkAnalysis`).

  JavaScript `Map`s and plain objects are modelled as insertion-ordered
  association lists, JavaScript numbers and SQL numerics as rationals,
  nullable fields as `Option`, and JavaScript truthiness explicitly
  (`""`, `0`, `null`/`undefined` are falsy).
-/

/-- JavaScript `Math.round`: round half toward positive infinity. -/
def jsRound (x : ℚ) : ℤ := ⌊x + 1/2⌋

/-- JavaScript `Math.round(x * 10) / 10` (round to one decimal). -/
def jsRound1 (x : ℚ) : ℚ := (jsRound (x * 10) : ℚ) / 10

/-- PostgreSQL `ROUND(x, d)`: round half away from zero at `d` decimals. -/
def sqlRound (x : ℚ) (d : ℕ) : ℚ :=
  (if 0 ≤ x then (⌊x * 10 ^ d + 1/2⌋ : ℚ) else -(⌊-(x * 10 ^ d) + 1/2⌋ : ℚ)) / 10 ^ d

/-- JavaScript `s₁ || s₂` for strings (empty string is falsy). -/
def jsOr (s t : String) : String := if s = "" then t else s

/-- JavaScript `o || null` for a nullable string (empty string is falsy). -/
def jsOrNull : Option String → Option String
  | none => none
  | some s => if s = "" then none else some s

/-- JavaScript `o || d` for a nullable string with a string default. -/
def jsOrDefaultStr (o : Option String) (d : String) : String :=
  match o with
  | none => d
  | some s => if s = "" then d else s

/-- Read a nullable string the way JavaScript string coalescing does. -/
def jsStr (o : Option String) : String := o.getD ""

/-- JavaScript `String.prototype.trim`: strip leading and trailing
whitespace. -/
def jsTrim (s : String) : String :=
  ⟨((s.data.dropWhile Char.isWhitespace).reverse.dropWhile Char.isWhitespace).reverse⟩

/-- JavaScript truthiness of a nullable number (`0` and `null` are falsy). -/
def jsTruthyQ : Option ℚ → Bool
  | none => false
  | some x => x != 0

/-- JavaScript truthiness of a nullable natural (`0` and `null` are falsy). -/
def jsTruthyN : Option ℕ → Bool
  | none => false
  | some n => n != 0

/-- One row of the `idr_disputes` table, restricted to the columns the
benchmarking core reads.  `payment_determination_outcome` and
`data_quarter` are `NOT NULL` in the schema; the rest are nullable. -/
structure Dispute where
  dispute_number : String
  payment_determination_outcome : String
  data_quarter : String
  service_code : Option String
  type_of_service_code : Option String
  provider_facility_name : Option String
  provider_facility_group_name : Option String
  provider_email_domain : Option String
  practice_facility_specialty : Option String
  practice_facility_size : Option String
  location_of_service : Option String
  provider_offer_pct_qpa : Option ℚ
  prevailing_party_offer_pct_qpa : Option ℚ
  length_determination_days : Option ℚ
  idre_compensation : Option ℚ
deriving Repr, DecidableEq

/-- The outcome string the code compares against everywhere. -/
def providerWinOutcome : String := "In Favor of Provider/Facility/AA Provider"

/-- `row.payment_determination_outcome === 'In Favor of Provider/Facility/AA Provider'`. -/
def isProviderWin (d : Dispute) : Bool := d.payment_determination_outcome == providerWinOutcome

/-! ## Service-code reconciliation (benchmark route analytics) -/

/-- The literal fallback tag `'Unknown'` used for a missing type tag. -/
def unknownCodeType : String := "Unknown"

/-- `const codeType = row.type_of_service_code || 'Unknown'`. -/
def codeTypeOf (d : Dispute) : String := jsOrDefaultStr d.type_of_service_code unknownCodeType

/-- The service code as the route's analytics read it (the query filters
out null codes, so the `getD` default is never hit on its inputs). -/
def scCodeOf (d : Dispute) : String := jsStr d.service_code

/-- The literal key separator used by the analytics grouping. -/
def keySep : String := "|"

/-- ``const key = `${code}|${codeType}` `` — the compound grouping key. -/
def scKeyOf (d : Dispute) : String := scCodeOf d ++ keySep ++ codeTypeOf d

/-- One value of the route's `serviceCodeMap`. -/
structure ServiceCodeEntry where
  service_code : String
  type_of_service_code : String
  total_disputes : ℕ
  wins : ℕ
  losses : ℕ
  provider_offers : List ℚ
  winning_offers : List ℚ
deriving Repr, DecidableEq

/-- The zeroed entry installed by `serviceCodeMap.set(key, {...})`. -/
def initServiceCodeEntry (code ctype : String) : ServiceCodeEntry :=
  ⟨code, ctype, 0, 0, 0, [], []⟩

/-- `if (row.f) entry.arr.push(row.f)` — pushes only truthy values. -/
def pushIfTruthy (xs : List ℚ) (o : Option ℚ) : List ℚ :=
  match o with
  | none => xs
  | some x => if x = 0 then xs else xs ++ [x]

/-- The per-row mutation of a `serviceCodeMap` entry. -/
def bumpServiceCodeEntry (e : ServiceCodeEntry) (d : Dispute) : ServiceCodeEntry :=
  { e with
    total_disputes := e.total_disputes + 1
    wins := if isProviderWin d then e.wins + 1 else e.wins
    losses := if isProviderWin d then e.losses else e.losses + 1
    provider_offers := pushIfTruthy e.provider_offers d.provider_offer_pct_qpa
    winning_offers := pushIfTruthy e.winning_offers d.prevailing_party_offer_pct_qpa }

/-- Insert-or-update one row into the insertion-ordered `serviceCodeMap`. -/
def upsertServiceCode (d : Dispute) : List (String × ServiceCodeEntry) → List (String × ServiceCodeEntry)
  | [] => [(scKeyOf d, bumpServiceCodeEntry (initServiceCodeEntry (scCodeOf d) (codeTypeOf d)) d)]
  | (k, e) :: rest =>
      if k = scKeyOf d then (k, bumpServiceCodeEntry e d) :: rest
      else (k, e) :: upsertServiceCode d rest

/-- The route's `serviceCodeMap` after its `forEach` over the rows. -/
def serviceCodeMap (rows : List Dispute) : List (String × ServiceCodeEntry) :=
  rows.foldl (fun acc d => upsertServiceCode d acc) []

/-- One value of the route's `typeStats` accumulator; `codes` models the
JavaScript `Set` of distinct service codes (insertion-ordered). -/
structure TypeStat where
  codes : List String
  cases : ℕ
  wins : ℕ
deriving Repr, DecidableEq

/-- `Set.add`: append the code if it is not already present. -/
def insertCode (c : String) (cs : List String) : List String :=
  if c ∈ cs then cs else cs ++ [c]

/-- The per-row mutation of a `typeStats` bucket. -/
def bumpTypeStat (s : TypeStat) (d : Dispute) : TypeStat :=
  { codes := insertCode (scCodeOf d) s.codes
    cases := s.cases + 1
    wins := if isProviderWin d then s.wins + 1 else s.wins }

/-- Insert-or-update one row into the insertion-ordered `typeStats` object. -/
def upsertTypeStat (d : Dispute) : List (String × TypeStat) → List (String × TypeStat)
  | [] => [(codeTypeOf d, bumpTypeStat ⟨[], 0, 0⟩ d)]
  | (t, s) :: rest =>
      if t = codeTypeOf d then (t, bumpTypeStat s d) :: rest
      else (t, s) :: upsertTypeStat d rest

/-- The route's `typeStats` reduce over the rows with non-null codes. -/
def typeStats (rows : List Dispute) : List (String × TypeStat) :=
  rows.foldl (fun acc d => upsertTypeStat d acc) []

/-- One entry of `finalTypeStats` (`count` is the `Set` size). -/
structure TypeStatOut where
  count : ℕ
  cases : ℕ
  wins : ℕ
deriving Repr, DecidableEq

/-- `finalTypeStats`: convert each `Set` of codes to its size. -/
def finalTypeStats (rows : List Dispute) : List (String × TypeStatOut) :=
  (typeStats rows).map fun p => (p.1, ⟨p.2.codes.length, p.2.cases, p.2.wins⟩)

/-- `Object.values(finalTypeStats).reduce((sum, stat) => sum + stat.cases, 0)`. -/
def sumTypeCases (rows : List Dispute) : ℕ :=
  ((finalTypeStats rows).map fun p => p.2.cases).sum

/-- `.not('service_code', 'is', null)` on a cohort. -/
def hasServiceCode (d : Dispute) : Bool := d.service_code.isSome

/-- The row ceiling on the service-code analytics query (`.limit(50000)`). -/
def serviceCodeRowLimit : ℕ := 50000

/-- The rows the service-code analytics query returns for a cohort:
non-null code, capped at 50 000 rows. -/
def serviceCodeRows (cohort : List Dispute) : List Dispute :=
  (cohort.filter hasServiceCode).take serviceCodeRowLimit

/-- The `missingServiceCodeQuery` head count: cohort rows with a null code. -/
def missingServiceCodeCount (cohort : List Dispute) : ℕ :=
  (cohort.filter fun d => d.service_code.isNone).length

/-- One row of the returned `service_code_analysis` array. -/
structure ServiceCodeAnalysisRow where
  service_code : String
  type_of_service_code : String
  total_disputes : ℕ
  wins : ℕ
  losses : ℕ
  win_rate : ℚ
  avg_provider_offer_pct : Option ℚ
  avg_winning_offer_pct : Option ℚ
deriving Repr, DecidableEq

/-- `arr.reduce((a, b) => a + b, 0) / arr.length`. -/
def listAvg (xs : List ℚ) : ℚ := xs.sum / xs.length

/-- The `.map(entry => ({...}))` step producing an output row. -/
def toAnalysisRow (e : ServiceCodeEntry) : ServiceCodeAnalysisRow :=
  { service_code := e.service_code
    type_of_service_code := e.type_of_service_code
    total_disputes := e.total_disputes
    wins := e.wins
    losses := e.losses
    win_rate := jsRound1 ((e.wins : ℚ) / (e.total_disputes : ℚ) * 100)
    avg_provider_offer_pct :=
      if e.provider_offers.length > 0 then some (jsRound1 (listAvg e.provider_offers)) else none
    avg_winning_offer_pct :=
      if e.winning_offers.length > 0 then some (jsRound1 (listAvg e.winning_offers)) else none }

/-- `service_code_analysis`: filter (≥ 1 case), map, sort by volume
descending (JavaScript sorts are stable; modelled by a stable insertion
sort), cap at 100 rows. -/
def serviceCodeAnalysis (rows : List Dispute) : List ServiceCodeAnalysisRow :=
  (List.insertionSort (fun a b => b.total_disputes ≤ a.total_disputes)
      ((((serviceCodeMap rows).map fun p => p.2).filter
        fun e => e.total_disputes ≥ 1).map toAnalysisRow)).take 100

/-- The `service_code_summary` fields relevant to reconciliation. -/
structure ServiceCodeSummary where
  total_cases_with_service_codes : ℕ
  total_wins_with_service_codes : ℕ
  cases_missing_service_codes : ℕ
  total_service_codes : ℕ
  total_cases_in_analytics : ℕ
deriving Repr, DecidableEq

/-- The summary object built by the route for a cohort. -/
def serviceCodeSummary (cohort : List Dispute) : ServiceCodeSummary :=
  let rows := serviceCodeRows cohort
  { total_cases_with_service_codes := rows.length
    total_wins_with_service_codes := (rows.filter isProviderWin).length
    cases_missing_service_codes := missingServiceCodeCount cohort
    total_service_codes := (serviceCodeMap rows).length
    total_cases_in_analytics := rows.length + missingServiceCodeCount cohort }

/-! ## Aggregation engine (`get_provider_benchmark` stored procedure) -/

/-- The parameter record of the SQL function `get_provider_benchmark`. -/
structure ProviderParams where
  p_specialty : Option String
  p_state : Option String
  p_practice_size : Option String
  p_service_codes : Option (List String)
  p_quarter : Option String
  p_practice_name : Option String
deriving Repr, DecidableEq

/-- Lower-case a string character by character (for `ILIKE`). -/
def lowerChars (s : String) : List Char := s.data.map Char.toLower

/-- Contiguous-sublist test used to model `LIKE '%pat%'`. -/
def containsSub (n : List Char) : List Char → Bool
  | [] => n.isEmpty
  | c :: rest => n.isPrefixOf (c :: rest) || containsSub n rest

/-- `s ILIKE '%' || pat || '%'`: case-insensitive substring match. -/
def ilikeAny (s pat : String) : Bool := containsSub (lowerChars pat) (lowerChars s)

/-- The `WHERE` clause of `get_provider_benchmark`.  SQL three-valued
logic: comparing a `NULL` column with a non-null parameter is unknown and
excludes the row, and `data_quarter = NULL` excludes every row. -/
def matchesProviderBenchmark (p : ProviderParams) (d : Dispute) : Bool :=
  (match p.p_quarter with
   | none => false
   | some q => d.data_quarter == q) &&
  (match p.p_specialty with
   | none => true
   | some s => d.practice_facility_specialty == some s) &&
  (match p.p_state with
   | none => true
   | some s => d.location_of_service == some s) &&
  (match p.p_practice_size with
   | none => true
   | some s => d.practice_facility_size == some s) &&
  (match p.p_service_codes with
   | none => true
   | some cs =>
     match d.service_code with
     | none => false
     | some c => cs.contains c) &&
  (match p.p_practice_name with
   | none => true
   | some n =>
     match d.provider_facility_name with
     | none => false
     | some fn => ilikeAny fn n)

/-- The row type returned by `get_provider_benchmark`. -/
structure BenchmarkRow where
  total_disputes : ℕ
  provider_win_rate : ℚ
  avg_provider_offer_pct : Option ℚ
  avg_winning_offer_pct : Option ℚ
  median_resolution_days : Option ℚ
  avg_idre_compensation : Option ℚ
deriving Repr, DecidableEq

/-- The error a PostgreSQL query can raise in this embedding. -/
inductive SqlError where
  | divisionByZero
deriving Repr, DecidableEq

/-- SQL `AVG` over a column: ignores `NULL`s, `NULL` when no values. -/
def sqlAvg (xs : List ℚ) : Option ℚ :=
  if xs.isEmpty then none else some (xs.sum / (xs.length : ℚ))

/-- SQL `PERCENTILE_CONT(f) WITHIN GROUP (ORDER BY col)`: linear
interpolation over the sorted non-null values, `NULL` when empty. -/
def percentileCont (f : ℚ) (xs : List ℚ) : Option ℚ :=
  let sorted := List.insertionSort (· ≤ ·) xs
  match sorted with
  | [] => none
  | _ =>
    let rn : ℚ := f * ((sorted.length : ℚ) - 1)
    let lo := (⌊rn⌋).toNat
    let hi := (⌈rn⌉).toNat
    let vlo := sorted.getD lo 0
    let vhi := sorted.getD hi 0
    some (vlo + (rn - (⌊rn⌋ : ℚ)) * (vhi - vlo))

/-- The body of the SQL function `get_provider_benchmark`.  Its win-rate
expression `COUNT(*) FILTER (...) * 100.0 / COUNT(*)` has no `NULLIF`
guard, so PostgreSQL raises `division_by_zero` when the predicate
matches no rows. -/
def get_provider_benchmark (p : ProviderParams) (store : List Dispute) :
    Except SqlError BenchmarkRow :=
  let rows := store.filter (matchesProviderBenchmark p)
  let n := rows.length
  let wins := (rows.filter isProviderWin).length
  if n = 0 then .error .divisionByZero
  else .ok
    { total_disputes := n
      provider_win_rate := sqlRound ((wins : ℚ) * 100 / (n : ℚ)) 2
      avg_provider_offer_pct :=
        (sqlAvg (rows.filterMap fun d => d.provider_offer_pct_qpa)).map (sqlRound · 2)
      avg_winning_offer_pct :=
        (sqlAvg (rows.filterMap fun d => d.prevailing_party_offer_pct_qpa)).map (sqlRound · 2)
      median_resolution_days :=
        (percentileCont (1/2) (rows.filterMap fun d => d.length_determination_days)).map
          (sqlRound · 0)
      avg_idre_compensation :=
        (sqlAvg (rows.filterMap fun d => d.idre_compensation)).map (sqlRound · 2) }

/-! ## Cohort resolution (client peer filters and route parameters) -/

/-- The three user types of the dashboard. -/
inductive UserType where
  | individual_provider
  | provider_group
  | law_firm
deriving Repr, DecidableEq

/-- The client-side `BenchmarkFilters` object (fields the peer/mine
derivation reads; `user_type` is absent on the derived peer filters). -/
structure BenchmarkFilters where
  user_type : Option UserType
  specialty : Option String
  state : Option String
  practice_size : Option String
  quarter : Option String
deriving Repr, DecidableEq

/-- The default quarter literal `'2024-Q4'`. -/
def defaultQuarter : String := "2024-Q4"

/-- The route request-type literal `'provider'`. -/
def typeProvider : String := "provider"

/-- The route request-type literal `'peer'`. -/
def typePeer : String := "peer"

/-- `getPeerBenchmark`'s peer filter derivation: keep specialty, drop
state and practice size (and every identifying field), default the
quarter to `'2024-Q4'`. -/
def peerFiltersOf (f : BenchmarkFilters) : BenchmarkFilters :=
  { user_type := none
    specialty := f.specialty
    state := none
    practice_size := none
    quarter := some (jsOrDefaultStr f.quarter defaultQuarter) }

/-- The benchmark route's default (`individual_provider`) parameter
build: state, practice size and practice name are passed only for
`type === 'provider'` requests. -/
def buildProviderParams (filters : BenchmarkFilters) (reqType : String)
    (practiceNameParam : Option String) : ProviderParams :=
  { p_specialty := jsOrNull filters.specialty
    p_state := if reqType == typeProvider then jsOrNull filters.state else none
    p_practice_size := if reqType == typeProvider then jsOrNull filters.practice_size else none
    p_service_codes := none
    p_quarter := jsOrNull filters.quarter
    p_practice_name := if reqType == typeProvider then jsOrNull practiceNameParam else none }

/-! ## Dashboard request validation (`runBenchmarkAnalysis`) -/

/-- The dashboard state feeding `runBenchmarkAnalysis`'s validation. -/
structure DashboardProfile where
  user_type : UserType
  specialty : Option String
  emailDomain : String
  facilityGroup : String
  practiceName : String
deriving Repr, DecidableEq

/-- The validation failures of `runBenchmarkAnalysis`. -/
inductive ValidationError where
  | missingSpecialty
  | missingEmailDomain
  | missingFacilityGroup
deriving Repr, DecidableEq

/-- The three early-return validation checks of `runBenchmarkAnalysis`,
in source order.  `!filters.specialty` is falsy for a missing or empty
specialty; the identifying values are tested after `.trim()`. -/
def runBenchmarkValidation (p : DashboardProfile) : Except ValidationError Unit :=
  if p.user_type == .individual_provider && jsStr p.specialty == "" then
    .error .missingSpecialty
  else if p.user_type == .law_firm && jsTrim p.emailDomain == "" then
    .error .missingEmailDomain
  else if p.user_type == .provider_group && jsTrim p.facilityGroup == "" then
    .error .missingFacilityGroup
  else .ok ()

/-! ## Insight generator (`generateInsights`, user-type aware version) -/

/-- The `BenchmarkMetrics` object consumed by `generateInsights`; the
facility/practice/breadth counters exist only for group/firm results. -/
structure BenchmarkMetrics where
  total_disputes : ℕ
  provider_win_rate : ℚ
  avg_provider_offer_pct : Option ℚ
  avg_winning_offer_pct : Option ℚ
  total_facilities : Option ℕ
  total_practices : Option ℕ
  specialties_represented : Option ℕ
  states_represented : Option ℕ
deriving Repr, DecidableEq

/-- Insight categories (`type` in the source). -/
inductive InsightType where
  | success
  | warning
  | info
deriving Repr, DecidableEq

/-- Which push site of `generateInsights` produced an insight: the
win-rate comparison, the offer-strategy comparison, the volume block, or
the group/firm breadth block. -/
inductive InsightKind where
  | winRate
  | offerStrategy
  | volume
  | breadth
deriving Repr, DecidableEq

/-- One emitted insight (title verbatim from the source; the message
bodies interpolate the same metrics and are not modelled). -/
structure Insight where
  kind : InsightKind
  type : InsightType
  title : String
deriving Repr, DecidableEq

/-- Whether the message copy of that push site cites peer data: every
win-rate message cites the peer average and every offer-strategy message
cites peer offers, while the volume/breadth messages only describe the
user's own cohort. -/
def referencesPeerData : InsightKind → Bool
  | .winRate => true
  | .offerStrategy => true
  | .volume => false
  | .breadth => false

/-- The win-rate section of `generateInsights`: one insight always, with
user-type specific copy and shared `> 5` / `< -5` thresholds. -/
def winRateInsights (mine peers : BenchmarkMetrics) (userType : UserType) : List Insight :=
  let winRateDiff := mine.provider_win_rate - peers.provider_win_rate
  match userType with
  | .law_firm =>
    if winRateDiff > 5 then
      [⟨.winRate, .success, "🎯 Superior Client Representation"⟩]
    else if winRateDiff < -5 then
      [⟨.winRate, .warning, "⚖️ Win Rate Below Peer Law Firms"⟩]
    else
      [⟨.winRate, .info, "📊 Competitive Law Firm Performance"⟩]
  | .provider_group =>
    if winRateDiff > 5 then
      [⟨.winRate, .success, "🏢 Outstanding Network Performance"⟩]
    else if winRateDiff < -5 then
      [⟨.winRate, .warning, "🔧 Network Performance Opportunity"⟩]
    else
      [⟨.winRate, .info, "📈 Solid Network Performance"⟩]
  | .individual_provider =>
    if winRateDiff > 5 then
      [⟨.winRate, .success, "🎯 Excellent Win Rate Performance"⟩]
    else if winRateDiff < -5 then
      [⟨.winRate, .warning, "⚠️ Win Rate Below Peers"⟩]
    else
      [⟨.winRate, .info, "📊 Win Rate In Line with Peers"⟩]

/-- The offer-strategy section: fires only when both averages are truthy
(a `0` average is falsy in JavaScript), and only outside `[-20, 20]`. -/
def offerInsights (mine peers : BenchmarkMetrics) : List Insight :=
  if jsTruthyQ mine.avg_provider_offer_pct && jsTruthyQ peers.avg_provider_offer_pct then
    let offerDiff := mine.avg_provider_offer_pct.getD 0 - peers.avg_provider_offer_pct.getD 0
    if offerDiff > 20 then
      [⟨.offerStrategy, .warning, "💰 High Offer Strategy"⟩]
    else if offerDiff < -20 then
      [⟨.offerStrategy, .info, "💡 Conservative Offer Strategy"⟩]
    else []
  else []

/-- The volume/coverage section, customized by user type. -/
def volumeInsights (mine : BenchmarkMetrics) (userType : UserType) : List Insight :=
  match userType with
  | .law_firm =>
    (if mine.total_disputes < 100 then
      [⟨.volume, .info, "📈 Growing IDR Practice"⟩]
     else
      [⟨.volume, .success, "⚖️ Established IDR Practice"⟩]) ++
    (if jsTruthyN mine.specialties_represented && mine.specialties_represented.getD 0 ≥ 5 then
      [⟨.breadth, .success, "🎯 Multi-Specialty Expertise"⟩]
     else [])
  | .provider_group =>
    (if jsTruthyN mine.total_facilities && mine.total_facilities.getD 0 > 1 then
      [⟨.volume, .info, "🏢 Multi-Facility Network Analysis"⟩]
     else []) ++
    (if jsTruthyN mine.specialties_represented && mine.specialties_represented.getD 0 > 3 then
      [⟨.breadth, .success, "🎯 Diverse Service Line Portfolio"⟩]
     else [])
  | .individual_provider =>
    if mine.total_disputes < 50 then
      [⟨.volume, .info, "📈 Limited Sample Size"⟩]
    else []

/-- `generateInsights`: the three sections pushed in source order. -/
def generateInsights (mine peers : BenchmarkMetrics) (userType : UserType) : List Insight :=
  winRateInsights mine peers userType ++ offerInsights mine peers ++ volumeInsights mine userType

/-! ## Filter-option cache (`getFilterOptions`) -/

/-- A Record Store failure surfaced to the client library. -/
inductive UpstreamError where
  | connectivity
  | malformedSchema
deriving Repr, DecidableEq

/-- The filter metadata bundle returned by the filters endpoint. -/
structure FilterOptionsData where
  specialties : List String
  states : List String
  practice_sizes : List String
  top_service_codes : List String
deriving Repr, DecidableEq

/-- The default bundle `getFilterOptions` fabricates in its catch block. -/
def emptyFilterOptions : FilterOptionsData := ⟨[], [], [], []⟩

/-- One `filterCache` entry. -/
structure CacheEntry where
  data : FilterOptionsData
  timestamp : ℕ
deriving Repr, DecidableEq

/-- `CACHE_DURATION = 5 * 60 * 1000` milliseconds. -/
def CACHE_DURATION : ℕ := 5 * 60 * 1000

/-- Case-sensitive association-list lookup (JavaScript `Map.get`). -/
def lookupCache (k : String) : List (String × CacheEntry) → Option CacheEntry
  | [] => none
  | (k₂, e) :: rest => if k₂ = k then some e else lookupCache k rest

/-- JavaScript `Map.set`: overwrite in place, else append. -/
def setCache (k : String) (e : CacheEntry) : List (String × CacheEntry) → List (String × CacheEntry)
  | [] => [(k, e)]
  | (k₂, e₂) :: rest =>
      if k₂ = k then (k₂, e) :: rest else (k₂, e₂) :: setCache k e rest

/-- `getFilterOptions` over an explicit cache state and the upstream
fetch outcome it would observe on a cache miss.  A fresh entry is served
from cache; otherwise a successful fetch is cached (with FIFO eviction
above 20 entries) and returned, while any upstream failure is swallowed
by the catch block, which returns the empty default bundle and caches
nothing. -/
def getFilterOptions (cache : List (String × CacheEntry)) (now : ℕ) (cacheKey : String)
    (upstream : Except UpstreamError FilterOptionsData) :
    FilterOptionsData × List (String × CacheEntry) :=
  match lookupCache cacheKey cache with
  | some cached =>
    if now - cached.timestamp < CACHE_DURATION then (cached.data, cache)
    else
      match upstream with
      | .error _ => (emptyFilterOptions, cache)
      | .ok data =>
        let cache₂ := setCache cacheKey ⟨data, now⟩ cache
        (data, if cache₂.length > 20 then cache₂.drop 1 else cache₂)
  | none =>
    match upstream with
    | .error _ => (emptyFilterOptions, cache)
    | .ok data =>
      let cache₂ := setCache cacheKey ⟨data, now⟩ cache
      (data, if cache₂.length > 20 then cache₂.drop 1 else cache₂)

/-! ## Entity search (`practice-search` route) -/

/-- One accumulator value of the practice-search `practiceMap`, keyed by
its `name`; the three count maps model the per-attribute frequency
`Map`s. -/
structure PracticeAcc where
  name : String
  specialty : String
  location : String
  size : String
  count : ℕ
  specialtyCount : List (String × ℕ)
  locationCount : List (String × ℕ)
  sizeCount : List (String × ℕ)
deriving Repr, DecidableEq

/-- Increment a frequency map entry (insert with count 1 if absent). -/
def bumpCount (v : String) : List (String × ℕ) → List (String × ℕ)
  | [] => [(v, 1)]
  | (k, n) :: rest => if k = v then (k, n + 1) :: rest else (k, n) :: bumpCount v rest

/-- `if (item.field) map.set(field, (map.get(field) || 0) + 1)`:
only truthy attribute values are counted. -/
def bumpCountIfTruthy (o : Option String) (m : List (String × ℕ)) : List (String × ℕ) :=
  match o with
  | none => m
  | some s => if s = "" then m else bumpCount s m

/-- The map key `item.provider_facility_name` (non-null on the query's
results, so the `getD` default is never hit on its inputs). -/
def practiceKeyOf (d : Dispute) : String := jsStr d.provider_facility_name

/-- The accumulator created on first sight of a practice name. -/
def initPracticeAcc (d : Dispute) : PracticeAcc :=
  { name := practiceKeyOf d
    specialty := jsStr d.practice_facility_specialty
    location := jsStr d.location_of_service
    size := jsStr d.practice_facility_size
    count := 1
    specialtyCount := bumpCountIfTruthy d.practice_facility_specialty []
    locationCount := bumpCountIfTruthy d.location_of_service []
    sizeCount := bumpCountIfTruthy d.practice_facility_size [] }

/-- The update applied when a practice name is seen again. -/
def bumpPracticeAcc (acc : PracticeAcc) (d : Dispute) : PracticeAcc :=
  { acc with
    count := acc.count + 1
    specialtyCount := bumpCountIfTruthy d.practice_facility_specialty acc.specialtyCount
    locationCount := bumpCountIfTruthy d.location_of_service acc.locationCount
    sizeCount := bumpCountIfTruthy d.practice_facility_size acc.sizeCount }

/-- Insert-or-update one row into the insertion-ordered `practiceMap`. -/
def upsertPractice (d : Dispute) : List PracticeAcc → List PracticeAcc
  | [] => [initPracticeAcc d]
  | a :: rest =>
      if a.name = practiceKeyOf d then bumpPracticeAcc a d :: rest
      else a :: upsertPractice d rest

/-- The route's `practiceMap` after its `forEach` over the rows. -/
def practiceMap (rows : List Dispute) : List PracticeAcc :=
  rows.foldl (fun m d => upsertPractice d m) []

/-- `Array.from(map.entries()).sort(([,a],[,b]) => b - a)[0]?.[0] || fallback`:
stable sort by count descending, take the first key, fall back when the
map is empty (or its key falsy, which cannot occur for counted values). -/
def mostCommonKey (entries : List (String × ℕ)) (fallback : String) : String :=
  match (List.insertionSort (fun a b => b.2 ≤ a.2) entries).head? with
  | none => fallback
  | some e => jsOr e.1 fallback

/-- One returned practice candidate. -/
structure PracticeCandidate where
  name : String
  specialty : String
  location : String
  size : String
  disputeCount : ℕ
deriving Repr, DecidableEq

/-- The `.map(item => ...)` step resolving each attribute by mode. -/
def toPracticeCandidate (a : PracticeAcc) : PracticeCandidate :=
  { name := a.name
    specialty := mostCommonKey a.specialtyCount a.specialty
    location := mostCommonKey a.locationCount a.location
    size := mostCommonKey a.sizeCount a.size
    disputeCount := a.count }

/-- The route's response list: map, sort by dispute count descending
(stablesort, as JavaScript requires), cap at the caller's limit. -/
def searchPractices (rows : List Dispute) (limit : ℕ) : List PracticeCandidate :=
  (List.insertionSort (fun a b => b.disputeCount ≤ a.disputeCount)
      ((practiceMap rows).map toPracticeCandidate)).take limit

/-- Number of rows of a practice carrying a given truthy attribute value
(the claim's "most frequent value across the entity's matching
records"); stated with `some v` so that, for `v ≠ ""`, it counts exactly
the rows the route's frequency maps count. -/
def countAttr (get : Dispute → Option String) (rows : List Dispute) (name v : String) : ℕ :=
  rows.countP fun d => practiceKeyOf d == name && get d == some v

/-! ## Observer functions used by the statements -/

/-- Association-list lookup into the service-code map. -/
def lookupEntry (k : String) : List (String × ServiceCodeEntry) → Option ServiceCodeEntry
  | [] => none
  | (k₂, e) :: rest => if k₂ = k then some e else lookupEntry k rest

/-- Association-list lookup into the type rollup. -/
def lookupTypeStat (t : String) : List (String × TypeStat) → Option TypeStat
  | [] => none
  | (t₂, s) :: rest => if t₂ = t then some s else lookupTypeStat t rest

/-- The rollup's case count for one type tag (0 when the tag is absent). -/
def typeCasesAt (t : String) (rows : List Dispute) : ℕ :=
  ((lookupTypeStat t (typeStats rows)).map fun s => s.cases).getD 0

/-- Frequency-map lookup (0 when the value is absent). -/
def lookupCount (v : String) : List (String × ℕ) → ℕ
  | [] => 0
  | (k, n) :: rest => if k = v then n else lookupCount v rest

/-- First practice accumulator with the given name. -/
def lookupPractice (name : String) : List PracticeAcc → Option PracticeAcc
  | [] => none
  | a :: rest => if a.name = name then some a else lookupPractice name rest

/-! ## Concrete fixtures -/

/-- A dispute row with every nullable column null. -/
def baseDispute : Dispute :=
  { dispute_number := ""
    payment_determination_outcome := ""
    data_quarter := ""
    service_code := none
    type_of_service_code := none
    provider_facility_name := none
    provider_facility_group_name := none
    provider_email_domain := none
    practice_facility_specialty := none
    practice_facility_size := none
    location_of_service := none
    provider_offer_pct_qpa := none
    prevailing_party_offer_pct_qpa := none
    length_determination_days := none
    idre_compensation := none }

/-- Rows exhibiting a compound-key collision: the codes `A` (tagged
`B|C`) and `A|B` (tagged `C`) concatenate to the same `code|type` key. -/
def collisionRows : List Dispute :=
  [ { baseDispute with service_code := some "A", type_of_service_code := some "B|C" },
    { baseDispute with service_code := some "A", type_of_service_code := some "D" },
    { baseDispute with service_code := some "A|B", type_of_service_code := some "C" } ]

/-- Scenario C: a row with code `99285` tagged `CPT`. -/
def scenarioCRowCPT : Dispute :=
  { baseDispute with service_code := some "99285", type_of_service_code := some "CPT" }

/-- Scenario C: a row with the same code `99285` tagged `HCPCS`. -/
def scenarioCRowHCPCS : Dispute :=
  { baseDispute with service_code := some "99285", type_of_service_code := some "HCPCS" }

/-- Scenario C's two-record cohort. -/
def scenarioCRows : List Dispute := [scenarioCRowCPT, scenarioCRowHCPCS]

/-- A provider-win dispute on a CPT-tagged emergency code. -/
def cptWinDispute : Dispute :=
  { baseDispute with
    service_code := some "99285"
    type_of_service_code := some "CPT"
    payment_determination_outcome := providerWinOutcome }

/-- A two-record cohort: one row with a CPT-tagged code, one with a null
code. -/
def reconCohort : List Dispute :=
  [ cptWinDispute,
    { baseDispute with payment_determination_outcome := providerWinOutcome } ]

/-- A one-row cohort whose single dispute is a provider win on a
CPT-tagged code. -/
def c10rows : List Dispute := [cptWinDispute]

/-- The breakdown row the analytics produce for `c10rows` (spelled as
the pipeline's own entry so its fields are definitionally the computed
ones). -/
def c10row : ServiceCodeAnalysisRow :=
  toAnalysisRow
    (bumpServiceCodeEntry (initServiceCodeEntry (scCodeOf cptWinDispute) (codeTypeOf cptWinDispute))
      cptWinDispute)

/-- A fully populated parameter record matching nothing in an empty store. -/
def benchParamsEx : ProviderParams :=
  { p_specialty := some "Emergency Medicine"
    p_state := none
    p_practice_size := none
    p_service_codes := none
    p_quarter := some "2024-Q4"
    p_practice_name := none }

/-- Dashboard filters of an individual-provider profile with specialty,
state, size and quarter all set. -/
def filtersEx : BenchmarkFilters :=
  { user_type := some .individual_provider
    specialty := some "Emergency Medicine"
    state := some "TX"
    practice_size := some "Small"
    quarter := some "2024-Q4" }

/-- A dispute row matching `filtersEx` on every filtered column. -/
def disputeEx : Dispute :=
  { baseDispute with
    data_quarter := "2024-Q4"
    practice_facility_specialty := some "Emergency Medicine"
    practice_facility_size := some "Small"
    location_of_service := some "TX" }

/-- An individual-provider profile with no specialty. -/
def profileIndNoSpec : DashboardProfile :=
  { user_type := .individual_provider
    specialty := none
    emailDomain := "firm.com"
    facilityGroup := ""
    practiceName := "" }

/-- The same profile resubmitted as a law firm (still no specialty). -/
def profileLawNoSpec : DashboardProfile :=
  { user_type := .law_firm
    specialty := none
    emailDomain := "firm.com"
    facilityGroup := ""
    practiceName := "" }

/-- A cohort result with a 70% win rate over ten disputes. -/
def sampleMineMetrics : BenchmarkMetrics :=
  { total_disputes := 10
    provider_win_rate := 70
    avg_provider_offer_pct := none
    avg_winning_offer_pct := none
    total_facilities := none
    total_practices := none
    specialties_represented := none
    states_represented := none }

/-- A peer result with zero disputes. -/
def zeroPeerMetrics : BenchmarkMetrics :=
  { total_disputes := 0
    provider_win_rate := 0
    avg_provider_offer_pct := none
    avg_winning_offer_pct := none
    total_facilities := none
    total_practices := none
    specialties_represented := none
    states_represented := none }

/-- A peer result with a 60% win rate. -/
def peersExMetrics : BenchmarkMetrics :=
  { total_disputes := 500
    provider_win_rate := 60
    avg_provider_offer_pct := none
    avg_winning_offer_pct := none
    total_facilities := none
    total_practices := none
    specialties_represented := none
    states_represented := none }

/-- A General Hospital row tagged Cardiology, in Texas. -/
def generalCardioRow : Dispute :=
  { baseDispute with
    provider_facility_name := some "General Hospital"
    practice_facility_specialty := some "Cardiology"
    location_of_service := some "TX"
    practice_facility_size := some "Small" }

/-- A General Hospital row tagged Radiology, in New York. -/
def generalRadioRow : Dispute :=
  { baseDispute with
    provider_facility_name := some "General Hospital"
    practice_facility_specialty := some "Radiology"
    location_of_service := some "NY"
    practice_facility_size := some "Small" }

/-- Scenario D: three rows of the same practice, two tagged Cardiology
and one tagged Radiology. -/
def generalRows : List Dispute := [generalCardioRow, generalCardioRow, generalRadioRow]

/-- The single candidate the practice search returns for `generalRows`. -/
def generalCandidate : PracticeCandidate :=
  (searchPractices generalRows 20).getD 0 ⟨"", "", "", "", 0⟩

/-! ## Lemmas: type rollup counting -/

theorem tsCases_upsert (d : Dispute) (acc : List (String × TypeStat)) :
    ((upsertTypeStat d acc).map fun p => p.2.cases).sum =
      ((acc.map fun p => p.2.cases).sum) + 1 := by
  induction acc with
  | nil => simp [upsertTypeStat, bumpTypeStat]
  | cons hd tl ih =>
    obtain ⟨t, s⟩ := hd
    by_cases h : t = codeTypeOf d
    · simp [upsertTypeStat, h, bumpTypeStat]
      omega
    · simp [upsertTypeStat, h]
      omega

theorem tsCases_foldl (rows : List Dispute) (acc : List (String × TypeStat)) :
    ((rows.foldl (fun a d => upsertTypeStat d a) acc).map fun p => p.2.cases).sum =
      ((acc.map fun p => p.2.cases).sum) + rows.length := by
  induction rows generalizing acc with
  | nil => simp
  | cons d tl ih =>
    simp only [List.foldl_cons, List.length_cons]
    rw [ih (upsertTypeStat d acc), tsCases_upsert]
    omega

theorem sumTypeCases_eq_length (rows : List Dispute) :
    sumTypeCases rows = rows.length := by
  have h := tsCases_foldl rows []
  simp only [List.map_nil, List.sum_nil, Nat.zero_add] at h
  rw [sumTypeCases, finalTypeStats, List.map_map]
  exact h

theorem filter_code_split (cohort : List Dispute) :
    (cohort.filter hasServiceCode).length + missingServiceCodeCount cohort = cohort.length := by
  induction cohort with
  | nil => simp [missingServiceCodeCount]
  | cons d tl ih =>
    simp only [missingServiceCodeCount, List.filter_cons] at ih ⊢
    cases hd : d.service_code <;>
      simp only [hasServiceCode, hd, Option.isSome_none, Option.isNone_none,
        Option.isSome_some, Option.isNone_some, List.length_cons] <;>
      simp_all <;> omega

/-- C1: for every cohort (within the analytics row ceiling), the type
rollup's case counts sum to the number of cohort records with a non-null
service code, and adding the separately counted records with a missing
code gives back the cohort's total dispute count — which is exactly the
`total_cases_in_analytics` figure the summary reports. -/
theorem serviceCode_type_rollup_reconciles (cohort : List Dispute)
    (h : (cohort.filter hasServiceCode).length ≤ serviceCodeRowLimit) :
    sumTypeCases (serviceCodeRows cohort) = (cohort.filter hasServiceCode).length ∧
    (cohort.filter hasServiceCode).length + missingServiceCodeCount cohort = cohort.length ∧
    (serviceCodeSummary cohort).total_cases_in_analytics = cohort.length := by
  have htake : serviceCodeRows cohort = cohort.filter hasServiceCode := by
    rw [serviceCodeRows, List.take_of_length_le h]
  refine ⟨?_, filter_code_split cohort, ?_⟩
  · rw [sumTypeCases_eq_length, htake]
  · simp only [serviceCodeSummary, htake]
    exact filter_code_split cohort

/-- Witness for C1 on a concrete two-record cohort. -/
theorem serviceCode_type_rollup_reconciles_witness :
    (reconCohort.filter hasServiceCode).length ≤ serviceCodeRowLimit ∧
    (sumTypeCases (serviceCodeRows reconCohort) = (reconCohort.filter hasServiceCode).length ∧
     (reconCohort.filter hasServiceCode).length + missingServiceCodeCount reconCohort =
       reconCohort.length ∧
     (serviceCodeSummary reconCohort).total_cases_in_analytics = reconCohort.length) :=
  ⟨by decide, serviceCode_type_rollup_reconciles reconCohort (by decide)⟩

/-- C2: the stored procedure's win-rate expression divides by `COUNT(*)`
with no guard, so a predicate matching zero records raises
`division_by_zero` instead of returning a zero-valued benchmark row. -/
theorem get_provider_benchmark_empty_cohort (p : ProviderParams) (store : List Dispute)
    (h : (store.filter (matchesProviderBenchmark p)).length = 0) :
    get_provider_benchmark p store = .error .divisionByZero := by
  simp [get_provider_benchmark, h]

/-- Witness for C2: a fully specified predicate over an empty store. -/
theorem get_provider_benchmark_empty_cohort_witness :
    get_provider_benchmark benchParamsEx [] = .error .divisionByZero :=
  get_provider_benchmark_empty_cohort benchParamsEx [] (by rfl)

/-- C5: the dashboard validation rejects exactly the profiles with a
missing specialty (individual providers only) or a mandatory identifying
value that is empty after trimming (email domain for law firms, group
name for provider groups); no other profile is rejected. -/
theorem benchmark_validation_characterization (p : DashboardProfile) :
    runBenchmarkValidation p ≠ .ok () ↔
      (p.user_type = .individual_provider ∧ jsStr p.specialty = "") ∨
      (p.user_type = .law_firm ∧ jsTrim p.emailDomain = "") ∨
      (p.user_type = .provider_group ∧ jsTrim p.facilityGroup = "") := by
  unfold runBenchmarkValidation
  split_ifs with h1 h2 h3 <;> simp_all

/-- Witness for C5 (Scenario E): an individual-provider profile without
a specialty is rejected while the law-firm version of the same profile
passes validation. -/
theorem benchmark_validation_witness :
    runBenchmarkValidation profileIndNoSpec ≠ .ok () ∧
    runBenchmarkValidation profileLawNoSpec = .ok () :=
  ⟨(benchmark_validation_characterization profileIndNoSpec).mpr (Or.inl ⟨rfl, rfl⟩),
   by rfl⟩

/-- C8 counterexample: a Record Store failure inside `getFilterOptions`
is not propagated — the catch block substitutes the empty default
options bundle (though it caches nothing). -/
theorem filter_options_failure_returns_default :
    getFilterOptions [] 0 "k" (.error .connectivity) = (emptyFilterOptions, []) := rfl

/-- C8 as amended: on a cache miss or stale entry, `getFilterOptions`
swallows every Record Store failure, returning the empty default bundle
in its place and leaving the cache unchanged (failures are never
cached); the error itself never reaches the caller. -/
theorem filter_options_failure_suppressed (cache : List (String × CacheEntry))
    (now : ℕ) (key : String) (e : UpstreamError)
    (h : ∀ c, lookupCache key cache = some c → CACHE_DURATION ≤ now - c.timestamp) :
    getFilterOptions cache now key (.error e) = (emptyFilterOptions, cache) := by
  unfold getFilterOptions
  cases hc : lookupCache key cache with
  | none => rfl
  | some c =>
    have := h c hc
    simp [Nat.not_lt.mpr this]

/-- Witness for amended C8 at an empty cache. -/
theorem filter_options_failure_suppressed_witness :
    getFilterOptions [] 7 "k" (.error .malformedSchema) = (emptyFilterOptions, []) :=
  filter_options_failure_suppressed [] 7 "k" .malformedSchema (by intro c hc; cases hc)

/-! ## Lemmas: breakdown row invariants -/

theorem scInv_bump (e : ServiceCodeEntry) (d : Dispute)
    (h : e.wins + e.losses = e.total_disputes) :
    (bumpServiceCodeEntry e d).wins + (bumpServiceCodeEntry e d).losses =
      (bumpServiceCodeEntry e d).total_disputes := by
  simp only [bumpServiceCodeEntry]
  split_ifs <;> omega

theorem scInv_upsert (d : Dispute) (acc : List (String × ServiceCodeEntry))
    (hacc : ∀ q ∈ acc, q.2.wins + q.2.losses = q.2.total_disputes) :
    ∀ q ∈ upsertServiceCode d acc, q.2.wins + q.2.losses = q.2.total_disputes := by
  induction acc with
  | nil =>
    intro q hq
    simp only [upsertServiceCode, List.mem_singleton] at hq
    subst hq
    exact scInv_bump _ _ (by simp [initServiceCodeEntry])
  | cons hd tl ih =>
    intro q hq
    obtain ⟨k, e⟩ := hd
    by_cases h : k = scKeyOf d
    · simp only [upsertServiceCode, if_pos h, List.mem_cons] at hq
      rcases hq with rfl | hq
      · exact scInv_bump _ _ (hacc (k, e) (by simp))
      · exact hacc _ (List.mem_cons_of_mem _ hq)
    · simp only [upsertServiceCode, if_neg h, List.mem_cons] at hq
      rcases hq with rfl | hq
      · exact hacc _ (by simp)
      · exact ih (fun r hr => hacc r (List.mem_cons_of_mem _ hr)) q hq

theorem scInv_map (rows : List Dispute) :
    ∀ q ∈ serviceCodeMap rows, q.2.wins + q.2.losses = q.2.total_disputes := by
  have main : ∀ (rs : List Dispute) (acc : List (String × ServiceCodeEntry)),
      (∀ q ∈ acc, q.2.wins + q.2.losses = q.2.total_disputes) →
      ∀ q ∈ rs.foldl (fun a d => upsertServiceCode d a) acc,
        q.2.wins + q.2.losses = q.2.total_disputes := by
    intro rs
    induction rs with
    | nil => intro acc h; simpa using h
    | cons d tl ih =>
      intro acc h
      simp only [List.foldl_cons]
      exact ih _ (scInv_upsert d acc h)
  exact main rows [] (by simp)

theorem jsRound1_bounds (x : ℚ) (h0 : 0 ≤ x) (h100 : x ≤ 100) :
    0 ≤ jsRound1 x ∧ jsRound1 x ≤ 100 := by
  unfold jsRound1 jsRound
  constructor
  · apply div_nonneg _ (by norm_num)
    have hx : (0 : ℚ) ≤ x * 10 + 1/2 := by linarith
    exact_mod_cast Int.cast_nonneg.mpr (Int.floor_nonneg.mpr hx)
  · have hlt : x * 10 + 1/2 < (1001 : ℤ) := by push_cast; linarith
    have hle : (⌊x * 10 + 1/2⌋ : ℤ) ≤ 1000 := by
      have := Int.floor_lt.mpr hlt
      omega
    have hle' : ((⌊x * 10 + 1/2⌋ : ℤ) : ℚ) ≤ 1000 := by exact_mod_cast hle
    linarith

theorem winRate_bounds (w t : ℕ) (hwt : w ≤ t) :
    0 ≤ jsRound1 ((w : ℚ) / (t : ℚ) * 100) ∧ jsRound1 ((w : ℚ) / (t : ℚ) * 100) ≤ 100 := by
  rcases Nat.eq_zero_or_pos t with ht | ht
  · subst ht
    have hw : w = 0 := Nat.le_zero.mp hwt
    subst hw
    have hz : ((0 : ℕ) : ℚ) / ((0 : ℕ) : ℚ) * 100 = 0 := by norm_num
    rw [hz]
    have hf : ⌊(0 : ℚ) * 10 + 1/2⌋ = 0 := by
      apply Int.floor_eq_iff.mpr
      norm_num
    unfold jsRound1 jsRound
    rw [hf]
    norm_num
  · apply jsRound1_bounds
    · positivity
    · have h1 : (w : ℚ) ≤ (t : ℚ) := Nat.cast_le.mpr hwt
      have ht' : (0 : ℚ) < (t : ℚ) := by exact_mod_cast ht
      rw [div_mul_eq_mul_div, div_le_iff₀ ht']
      nlinarith

/-- C10: every returned breakdown row satisfies `wins + losses =
total_disputes` (each matched record increments exactly one of the two)
and its `win_rate` lies between 0 and 100. -/
theorem breakdown_row_invariants (rows : List Dispute) (r : ServiceCodeAnalysisRow)
    (hr : r ∈ serviceCodeAnalysis rows) :
    r.wins + r.losses = r.total_disputes ∧ 0 ≤ r.win_rate ∧ r.win_rate ≤ 100 := by
  unfold serviceCodeAnalysis at hr
  have hmem := (List.take_sublist 100 _).mem hr
  have hr1 := (List.perm_insertionSort
    (fun a b : ServiceCodeAnalysisRow => b.total_disputes ≤ a.total_disputes) _).mem_iff.mp hmem
  obtain ⟨e, he, rfl⟩ := List.mem_map.mp hr1
  have he2 := List.mem_filter.mp he
  obtain ⟨q, hq, rfl⟩ := List.mem_map.mp he2.1
  have hinv := scInv_map rows q hq
  refine ⟨by simpa [toAnalysisRow] using hinv, ?_⟩
  have hb := winRate_bounds q.2.wins q.2.total_disputes (by omega)
  simpa [toAnalysisRow] using hb

/-- Witness for C10 on a one-row cohort. -/
theorem breakdown_row_invariants_witness :
    c10row.wins + c10row.losses = c10row.total_disputes ∧
    0 ≤ c10row.win_rate ∧ c10row.win_rate ≤ 100 :=
  breakdown_row_invariants c10rows c10row
    (by rw [show serviceCodeAnalysis c10rows = [c10row] from rfl]
        exact List.mem_singleton.mpr rfl)

/-! ## Lemmas: insight generation -/

theorem winRateInsights_filter_winRate (m p : BenchmarkMetrics) (ut : UserType) :
    (winRateInsights m p ut).filter (fun i => i.kind == .winRate) = winRateInsights m p ut := by
  cases ut <;> simp only [winRateInsights] <;> split_ifs <;> rfl

theorem offerInsights_kind (m p : BenchmarkMetrics) :
    ∀ i ∈ offerInsights m p, i.kind = .offerStrategy := by
  intro i hi
  simp only [offerInsights] at hi
  split at hi
  · split at hi
    · simp_all
    · split at hi <;> simp_all
  · simp_all

theorem volumeInsights_kind (m : BenchmarkMetrics) (ut : UserType) :
    ∀ i ∈ volumeInsights m ut, i.kind = .volume ∨ i.kind = .breadth := by
  intro i hi
  cases ut <;> unfold volumeInsights at hi <;> split_ifs at hi <;>
    simp only [List.mem_append, List.mem_singleton, List.not_mem_nil, or_false,
      false_or] at hi <;> rcases hi with rfl | rfl <;> simp_all

theorem generateInsights_filter_winRate (m p : BenchmarkMetrics) (ut : UserType) :
    (generateInsights m p ut).filter (fun i => i.kind == .winRate) =
      winRateInsights m p ut := by
  unfold generateInsights
  rw [List.filter_append, List.filter_append, winRateInsights_filter_winRate]
  have ho : (offerInsights m p).filter (fun i => i.kind == .winRate) = [] := by
    rw [List.filter_eq_nil_iff]
    intro a ha
    have := offerInsights_kind m p a ha
    simp [this]
  have hv : (volumeInsights m ut).filter (fun i => i.kind == .winRate) = [] := by
    rw [List.filter_eq_nil_iff]
    intro a ha
    rcases volumeInsights_kind m ut a ha with h | h <;> simp [h]
  rw [ho, hv]
  simp

theorem winRateInsights_length (m p : BenchmarkMetrics) (ut : UserType) :
    (winRateInsights m p ut).length = 1 := by
  cases ut <;> simp only [winRateInsights] <;> split_ifs <;> rfl

/-- C6: for every pair of results and user type, exactly one win-rate
insight is emitted; its category is success above `+5`, warning below
`-5`, info otherwise — the same thresholds for all three user types —
while the title copy differs between any two user types. -/
theorem win_rate_insight_thresholds (mine peers : BenchmarkMetrics) :
    (∀ ut : UserType,
       ((generateInsights mine peers ut).filter (fun i => i.kind == .winRate)).length = 1 ∧
       ∀ i ∈ generateInsights mine peers ut, i.kind = .winRate →
         i.type = (if mine.provider_win_rate - peers.provider_win_rate > 5 then .success
           else if mine.provider_win_rate - peers.provider_win_rate < -5 then .warning
           else .info)) ∧
    (∀ ut₁ ut₂ : UserType, ut₁ ≠ ut₂ →
       ((generateInsights mine peers ut₁).filter (fun i => i.kind == .winRate)).map
           (fun i => i.title) ≠
         ((generateInsights mine peers ut₂).filter (fun i => i.kind == .winRate)).map
           (fun i => i.title)) := by
  constructor
  · intro ut
    constructor
    · rw [generateInsights_filter_winRate]
      exact winRateInsights_length mine peers ut
    · intro i hi hk
      unfold generateInsights at hi
      rw [List.mem_append, List.mem_append] at hi
      rcases hi with (hi | hi) | hi
      · cases ut <;> simp only [winRateInsights] at hi <;> split_ifs at hi with h1 h2 <;>
          simp only [List.mem_singleton] at hi <;> subst hi <;>
          first
            | (rw [if_pos h1])
            | (rw [if_neg h1, if_pos h2])
            | (rw [if_neg h1, if_neg h2])
      · have := offerInsights_kind mine peers i hi
        rw [hk] at this
        cases this
      · rcases volumeInsights_kind mine ut i hi with h | h <;>
          rw [hk] at h <;> cases h
  · intro ut₁ ut₂ hne
    rw [generateInsights_filter_winRate, generateInsights_filter_winRate]
    by_cases h5 : mine.provider_win_rate - peers.provider_win_rate > 5
    · cases ut₁ <;> cases ut₂ <;>
        first
          | exact absurd rfl hne
          | (simp only [winRateInsights, if_pos h5]; decide)
    · by_cases hm5 : mine.provider_win_rate - peers.provider_win_rate < -5
      · cases ut₁ <;> cases ut₂ <;>
          first
            | exact absurd rfl hne
            | (simp only [winRateInsights, if_neg h5, if_pos hm5]; decide)
      · cases ut₁ <;> cases ut₂ <;>
          first
            | exact absurd rfl hne
            | (simp only [winRateInsights, if_neg h5, if_neg hm5]; decide)

/-- Witness for C6: with a 70% cohort against a 60% peer group, the
law-firm call emits exactly one win-rate insight and its title differs
from the individual-provider call's. -/
theorem win_rate_insight_thresholds_witness :
    ((generateInsights sampleMineMetrics peersExMetrics .law_firm).filter
        (fun i => i.kind == .winRate)).length = 1 ∧
    ((generateInsights sampleMineMetrics peersExMetrics .individual_provider).filter
        (fun i => i.kind == .winRate)).map (fun i => i.title) ≠
      ((generateInsights sampleMineMetrics peersExMetrics .law_firm).filter
        (fun i => i.kind == .winRate)).map (fun i => i.title) :=
  ⟨((win_rate_insight_thresholds sampleMineMetrics peersExMetrics).1 .law_firm).1,
   (win_rate_insight_thresholds sampleMineMetrics peersExMetrics).2 .individual_provider
     .law_firm (by decide)⟩

/-- C7 counterexample: with a peer result of zero disputes,
`generateInsights` still emits its win-rate insight — whose copy cites
the peer average — so the output is not restricted to the cohort-only
volume insight. -/
theorem insights_zero_peers_counterexample :
    zeroPeerMetrics.total_disputes = 0 ∧
    ((generateInsights sampleMineMetrics zeroPeerMetrics .individual_provider).filter
        (fun i => referencesPeerData i.kind)) =
      [⟨.winRate, .success, "🎯 Excellent Win Rate Performance"⟩] := by
  refine ⟨rfl, ?_⟩
  have h5 : sampleMineMetrics.provider_win_rate - zeroPeerMetrics.provider_win_rate > 5 := by
    norm_num [sampleMineMetrics, zeroPeerMetrics]
  simp only [generateInsights, winRateInsights, offerInsights, volumeInsights, if_pos h5]
  norm_num [sampleMineMetrics, zeroPeerMetrics, jsTruthyQ, referencesPeerData]

/-- C7 as amended: `generateInsights` never inspects
`peers.total_disputes`; even when it is zero, exactly one win-rate
insight fires and every emitted win-rate insight's copy references peer
data.  (The dashboard only avoids this case because a failed peer fetch
returns `null` and aborts before insights are generated.) -/
theorem insights_zero_peers_amended (mine peers : BenchmarkMetrics) (ut : UserType)
    (_hz : peers.total_disputes = 0) :
    ((generateInsights mine peers ut).filter (fun i => i.kind == .winRate)).length = 1 ∧
    ∀ i ∈ generateInsights mine peers ut, i.kind = .winRate →
      referencesPeerData i.kind = true := by
  refine ⟨?_, ?_⟩
  · rw [generateInsights_filter_winRate]
    exact winRateInsights_length mine peers ut
  · intro i hi hk
    rw [hk]
    rfl

/-- Witness for amended C7 at a concrete zero-peer input. -/
theorem insights_zero_peers_amended_witness :
    ((generateInsights sampleMineMetrics zeroPeerMetrics .individual_provider).filter
        (fun i => i.kind == .winRate)).length = 1 :=
  (insights_zero_peers_amended sampleMineMetrics zeroPeerMetrics .individual_provider rfl).1

/-! ## Lemmas: peer predicate derivation -/

theorem peer_reqType_ne : (typePeer == typeProvider) = false := by rfl

theorem peer_quarter_some (f : BenchmarkFilters) :
    jsOrNull (some (jsOrDefaultStr f.quarter defaultQuarter)) =
      some (jsOrDefaultStr f.quarter defaultQuarter) := by
  cases hq : f.quarter with
  | none => rfl
  | some s =>
    by_cases hs : s = "" <;> simp [jsOrNull, jsOrDefaultStr, hs, defaultQuarter]

/-- C4: the derived peer parameters keep only the specialty (when
present) and the (defaulted) quarter — the state, practice-size and
identifying practice-name filters are always dropped — and whenever the
"mine" request adds only geography/size constraints beyond those, every
record matched by the "mine" predicate is matched by the peer
predicate. -/
theorem peer_predicate_superset (f : BenchmarkFilters) (pn : Option String) (d : Dispute) :
    ((buildProviderParams (peerFiltersOf f) typePeer none).p_state = none ∧
     (buildProviderParams (peerFiltersOf f) typePeer none).p_practice_size = none ∧
     (buildProviderParams (peerFiltersOf f) typePeer none).p_practice_name = none ∧
     (buildProviderParams (peerFiltersOf f) typePeer none).p_specialty = jsOrNull f.specialty ∧
     (buildProviderParams (peerFiltersOf f) typePeer none).p_quarter =
       some (jsOrDefaultStr f.quarter defaultQuarter)) ∧
    (pn = none →
      matchesProviderBenchmark (buildProviderParams f typeProvider pn) d = true →
      matchesProviderBenchmark (buildProviderParams (peerFiltersOf f) typePeer none) d = true) := by
  constructor
  · refine ⟨?_, ?_, ?_, rfl, ?_⟩
    · simp [buildProviderParams, peer_reqType_ne]
    · simp [buildProviderParams, peer_reqType_ne]
    · simp [buildProviderParams, peer_reqType_ne]
    · simp only [buildProviderParams, peerFiltersOf]
      exact peer_quarter_some f
  · intro hpn hm
    subst hpn
    simp only [matchesProviderBenchmark, buildProviderParams, peerFiltersOf,
      peer_reqType_ne, Bool.and_eq_true] at hm ⊢
    obtain ⟨⟨⟨⟨⟨hq, hs⟩, _⟩, _⟩, _⟩, _⟩ := hm
    refine ⟨⟨⟨⟨⟨?_, ?_⟩, ?_⟩, ?_⟩, ?_⟩, ?_⟩
    · rw [peer_quarter_some f]
      cases hfq : f.quarter with
      | none => rw [hfq] at hq; simp [jsOrNull] at hq
      | some s =>
        by_cases hss : s = ""
        · rw [hfq] at hq
          simp [jsOrNull, hss] at hq
        · rw [hfq] at hq
          simp only [jsOrNull, if_neg hss] at hq
          simpa [jsOrDefaultStr, hss] using hq
    · exact hs
    · trivial
    · trivial
    · trivial
    · trivial

/-- Witness for C4: an individual-provider profile with specialty,
state, size and quarter, and a record matching the "mine" predicate. -/
theorem peer_predicate_superset_witness :
    matchesProviderBenchmark (buildProviderParams filtersEx typeProvider none) disputeEx = true ∧
    matchesProviderBenchmark
      (buildProviderParams (peerFiltersOf filtersEx) typePeer none) disputeEx = true :=
  ⟨by rfl, (peer_predicate_superset filtersEx none disputeEx).2 rfl (by rfl)⟩

/-! ## Lemmas: compound-key grouping counts -/

theorem lookupEntry_upsert (d : Dispute) (acc : List (String × ServiceCodeEntry)) (k : String) :
    lookupEntry k (upsertServiceCode d acc) =
      if scKeyOf d = k then
        some (bumpServiceCodeEntry
          ((lookupEntry k acc).getD (initServiceCodeEntry (scCodeOf d) (codeTypeOf d))) d)
      else lookupEntry k acc := by
  induction acc with
  | nil =>
    by_cases h : scKeyOf d = k <;> simp [upsertServiceCode, lookupEntry, h]
  | cons hd tl ih =>
    obtain ⟨k₂, e⟩ := hd
    by_cases h2 : k₂ = scKeyOf d
    · subst h2
      by_cases h3 : scKeyOf d = k <;>
        simp [upsertServiceCode, lookupEntry, h3]
    · by_cases h3 : k₂ = k
      · subst h3
        have hne : ¬scKeyOf d = k₂ := fun h => h2 h.symm
        simp [upsertServiceCode, h2, lookupEntry, hne]
      · simp [upsertServiceCode, h2, lookupEntry, h3, ih]

theorem lookupEntry_total_foldl (rows : List Dispute) (acc : List (String × ServiceCodeEntry))
    (k : String) :
    ((lookupEntry k (rows.foldl (fun a d => upsertServiceCode d a) acc)).map
        (fun e => e.total_disputes)).getD 0 =
      ((lookupEntry k acc).map (fun e => e.total_disputes)).getD 0 +
        rows.countP (fun d => scKeyOf d == k) := by
  induction rows generalizing acc with
  | nil => simp
  | cons d tl ih =>
    simp only [List.foldl_cons, List.countP_cons]
    rw [ih (upsertServiceCode d acc), lookupEntry_upsert]
    by_cases h : scKeyOf d = k
    · cases hacc : lookupEntry k acc <;>
        simp [h, hacc, bumpServiceCodeEntry, initServiceCodeEntry] <;> omega
    · simp only [if_neg h]
      have : (scKeyOf d == k) = false := by simp [h]
      simp [this]

theorem lookupEntry_isSome_foldl (rows : List Dispute) (acc : List (String × ServiceCodeEntry))
    (k : String) :
    (lookupEntry k (rows.foldl (fun a d => upsertServiceCode d a) acc)).isSome =
      ((lookupEntry k acc).isSome || rows.any (fun d => scKeyOf d == k)) := by
  induction rows generalizing acc with
  | nil => simp
  | cons d tl ih =>
    simp only [List.foldl_cons, List.any_cons]
    rw [ih (upsertServiceCode d acc), lookupEntry_upsert]
    by_cases h : scKeyOf d = k
    · simp [h]
    · have : (scKeyOf d == k) = false := by simp [h]
      simp [h, this, Bool.or_assoc, Bool.or_comm, Bool.or_left_comm]

theorem serviceCodeMap_total (rows : List Dispute) (k : String)
    (h : rows.any (fun d => scKeyOf d == k) = true) :
    (lookupEntry k (serviceCodeMap rows)).map (fun e => e.total_disputes) =
      some (rows.countP fun d => scKeyOf d == k) := by
  have h1 := lookupEntry_total_foldl rows [] k
  have h2 := lookupEntry_isSome_foldl rows [] k
  rw [h] at h2
  simp only [lookupEntry, Option.isSome_none, Bool.false_or, Option.map_none', Option.getD_none,
    Nat.zero_add] at h1 h2
  obtain ⟨e, he⟩ := Option.isSome_iff_exists.mp h2
  rw [show serviceCodeMap rows = rows.foldl (fun a d => upsertServiceCode d a) [] from rfl]
  rw [he] at h1 ⊢
  simp only [Option.map_some', Option.getD_some] at h1
  simp [h1]

theorem pipe_split (xs : List Char) :
    ∀ (us ys vs : List Char), '|' ∉ xs → '|' ∉ us →
      xs ++ '|' :: ys = us ++ '|' :: vs → xs = us ∧ ys = vs := by
  induction xs with
  | nil =>
    intro us ys vs _ hu h
    cases us with
    | nil => simpa using h
    | cons u ut =>
      simp only [List.nil_append, List.cons_append, List.cons.injEq] at h
      exact absurd (h.1 ▸ List.mem_cons_self u ut) (h.1 ▸ hu)
  | cons x xt ih =>
    intro us ys vs hx hu h
    cases us with
    | nil =>
      simp only [List.nil_append, List.cons_append, List.cons.injEq] at h
      exact absurd (h.1 ▸ List.mem_cons_self x xt) (fun hm => hx (h.1 ▸ hm))
    | cons u ut =>
      simp only [List.cons_append, List.cons.injEq] at h
      obtain ⟨rfl, h2⟩ := h
      have hx2 : '|' ∉ xt := fun hm => hx (List.mem_cons_of_mem _ hm)
      have hu2 : '|' ∉ ut := fun hm => hu (List.mem_cons_of_mem _ hm)
      obtain ⟨rfl, rfl⟩ := ih ut ys vs hx2 hu2 h2
      exact ⟨rfl, rfl⟩

theorem scKey_data (d : Dispute) :
    (scKeyOf d).data = (scCodeOf d).data ++ '|' :: (codeTypeOf d).data := by
  rw [scKeyOf, String.data_append, String.data_append]
  simp [keySep]

theorem key_concat_data (c t : String) :
    (c ++ keySep ++ t).data = c.data ++ '|' :: t.data := by
  rw [String.data_append, String.data_append]
  simp [keySep]

theorem scKey_eq_iff (d : Dispute) (c t : String)
    (hd : '|' ∉ (scCodeOf d).data) (hc : '|' ∉ c.data) :
    scKeyOf d = c ++ keySep ++ t ↔ scCodeOf d = c ∧ codeTypeOf d = t := by
  constructor
  · intro h
    have hdata : (scCodeOf d).data ++ '|' :: (codeTypeOf d).data = c.data ++ '|' :: t.data := by
      rw [← scKey_data, ← key_concat_data, h]
    obtain ⟨h1, h2⟩ := pipe_split (scCodeOf d).data c.data (codeTypeOf d).data t.data hd hc hdata
    exact ⟨String.ext h1, String.ext h2⟩
  · rintro ⟨h1, h2⟩
    rw [scKeyOf, h1, h2]

theorem lookupTypeStat_upsert (d : Dispute) (acc : List (String × TypeStat)) (t : String) :
    lookupTypeStat t (upsertTypeStat d acc) =
      if codeTypeOf d = t then
        some (bumpTypeStat ((lookupTypeStat t acc).getD ⟨[], 0, 0⟩) d)
      else lookupTypeStat t acc := by
  induction acc with
  | nil =>
    by_cases h : codeTypeOf d = t <;> simp [upsertTypeStat, lookupTypeStat, h]
  | cons hd tl ih =>
    obtain ⟨t₂, s⟩ := hd
    by_cases h2 : t₂ = codeTypeOf d
    · subst h2
      by_cases h3 : codeTypeOf d = t <;>
        simp [upsertTypeStat, lookupTypeStat, h3]
    · by_cases h3 : t₂ = t
      · subst h3
        have hne : ¬codeTypeOf d = t₂ := fun h => h2 h.symm
        simp [upsertTypeStat, h2, lookupTypeStat, hne]
      · simp [upsertTypeStat, h2, lookupTypeStat, h3, ih]

theorem typeCasesAt_foldl (rows : List Dispute) (acc : List (String × TypeStat)) (t : String) :
    ((lookupTypeStat t (rows.foldl (fun a d => upsertTypeStat d a) acc)).map
        (fun s => s.cases)).getD 0 =
      ((lookupTypeStat t acc).map (fun s => s.cases)).getD 0 +
        rows.countP (fun d => codeTypeOf d == t) := by
  induction rows generalizing acc with
  | nil => simp
  | cons d tl ih =>
    simp only [List.foldl_cons, List.countP_cons]
    rw [ih (upsertTypeStat d acc), lookupTypeStat_upsert]
    by_cases h : codeTypeOf d = t
    · cases hacc : lookupTypeStat t acc <;>
        simp [h, hacc, bumpTypeStat] <;> omega
    · have hb : (codeTypeOf d == t) = false := by simp [h]
      simp [if_neg h, hb]

theorem typeCasesAt_counts (rows : List Dispute) (t : String) :
    typeCasesAt t rows = rows.countP fun d => codeTypeOf d == t := by
  have h := typeCasesAt_foldl rows [] t
  simp only [lookupTypeStat, Option.map_none', Option.getD_none, Nat.zero_add] at h
  rw [typeCasesAt, typeStats]
  exact h

/-- C3 as amended: the breakdown groups by the concatenated string key
`code + "|" + type`.  Two records sharing a code but tagged differently
always land in two distinct rows, and — provided no code contains the
separator `"|"`, which every real CPT/HCPCS/DRG/N-R code satisfies —
each of the two rows counts exactly the records carrying its own
(code, type) pair; the type rollup counts each record under its own
normalized tag unconditionally.  (Without the separator restriction the
string key is not injective in the pair, see the counterexample.) -/
theorem serviceCode_compound_key_grouping (rows : List Dispute) (d₁ d₂ : Dispute) (c : String)
    (h₁ : d₁ ∈ rows) (h₂ : d₂ ∈ rows)
    (hc₁ : scCodeOf d₁ = c) (hc₂ : scCodeOf d₂ = c)
    (ht : codeTypeOf d₁ ≠ codeTypeOf d₂)
    (hpipe : ∀ d ∈ rows, '|' ∉ (scCodeOf d).data) :
    c ++ keySep ++ codeTypeOf d₁ ≠ c ++ keySep ++ codeTypeOf d₂ ∧
    (lookupEntry (c ++ keySep ++ codeTypeOf d₁) (serviceCodeMap rows)).map
        (fun e => e.total_disputes) =
      some (rows.countP fun d => scCodeOf d == c && codeTypeOf d == codeTypeOf d₁) ∧
    (lookupEntry (c ++ keySep ++ codeTypeOf d₂) (serviceCodeMap rows)).map
        (fun e => e.total_disputes) =
      some (rows.countP fun d => scCodeOf d == c && codeTypeOf d == codeTypeOf d₂) ∧
    ∀ t : String, typeCasesAt t rows = rows.countP fun d => codeTypeOf d == t := by
  have hcpipe : '|' ∉ c.data := hc₁ ▸ hpipe d₁ h₁
  have hcount : ∀ (dd : Dispute), dd ∈ rows → ∀ tt : String,
      (scKeyOf dd == c ++ keySep ++ tt) = true ↔
        (scCodeOf dd == c && codeTypeOf dd == tt) = true := by
    intro dd hdd tt
    simp only [beq_iff_eq, Bool.and_eq_true]
    exact scKey_eq_iff dd c tt (hpipe dd hdd) hcpipe
  refine ⟨?_, ?_, ?_, typeCasesAt_counts rows⟩
  · intro h
    apply ht
    have hdata := congrArg String.data h
    rw [key_concat_data, key_concat_data] at hdata
    have h2 := List.append_cancel_left hdata
    injection h2 with _ h3
    exact String.ext h3

  · have hany : rows.any (fun d => scKeyOf d == c ++ keySep ++ codeTypeOf d₁) = true := by
      rw [List.any_eq_true]
      exact ⟨d₁, h₁, by simp [scKeyOf, hc₁]⟩
    rw [serviceCodeMap_total rows _ hany]
    exact congrArg some (List.countP_congr fun d hd => hcount d hd (codeTypeOf d₁))
  · have hany : rows.any (fun d => scKeyOf d == c ++ keySep ++ codeTypeOf d₂) = true := by
      rw [List.any_eq_true]
      exact ⟨d₂, h₂, by simp [scKeyOf, hc₂]⟩
    rw [serviceCodeMap_total rows _ hany]
    exact congrArg some (List.countP_congr fun d hd => hcount d hd (codeTypeOf d₂))

/-- C3 counterexample: grouping is by the concatenated string
`code|type`, which is not injective in the (code, type) pair: with the
rows ⟨`A`, `B|C`⟩, ⟨`A`, `D`⟩ and ⟨`A|B`, `C`⟩ the breakdown row
displayed as code `A` with tag `B|C` reports 2 disputes although exactly
one record carries that (code, type) pair — so a row does not count only
the records with its own pair. -/
theorem serviceCode_key_collision :
    ((serviceCodeAnalysis collisionRows).filter
        (fun e => e.service_code == "A" && e.type_of_service_code == "B|C")).map
        (fun e => e.total_disputes) = [2] ∧
    collisionRows.countP
        (fun d => d.service_code == some "A" && codeTypeOf d == "B|C") = 1 := by
  constructor <;> decide

/-- Witness for amended C3 (Scenario C): code 99285 tagged CPT on one
record and HCPCS on another yields two distinct rows, each counting one
dispute, and the rollup counts one case under each tag. -/
theorem serviceCode_compound_key_grouping_witness :
    ("99285" ++ keySep ++ "CPT" ≠ "99285" ++ keySep ++ "HCPCS") ∧
    (lookupEntry ("99285" ++ keySep ++ "CPT") (serviceCodeMap scenarioCRows)).map
        (fun e => e.total_disputes) = some 1 ∧
    (lookupEntry ("99285" ++ keySep ++ "HCPCS") (serviceCodeMap scenarioCRows)).map
        (fun e => e.total_disputes) = some 1 ∧
    typeCasesAt "CPT" scenarioCRows = 1 ∧ typeCasesAt "HCPCS" scenarioCRows = 1 := by
  have h := serviceCode_compound_key_grouping scenarioCRows scenarioCRowCPT scenarioCRowHCPCS
    "99285" (by decide) (by decide) rfl rfl (by decide) (by decide)
  refine ⟨h.1, ?_, ?_, ?_, ?_⟩
  · exact h.2.1.trans (by decide)
  · exact h.2.2.1.trans (by decide)
  · exact (h.2.2.2 "CPT").trans (by decide)
  · exact (h.2.2.2 "HCPCS").trans (by decide)

/-! ## Lemmas: frequency maps and mode resolution -/

theorem lookupCount_bumpCount (v w : String) (m : List (String × ℕ)) :
    lookupCount v (bumpCount w m) =
      if w = v then lookupCount v m + 1 else lookupCount v m := by
  induction m with
  | nil =>
    by_cases h : w = v <;> simp [bumpCount, lookupCount, h]
  | cons hd tl ih =>
    obtain ⟨k, n⟩ := hd
    by_cases hk : k = w
    · subst hk
      by_cases hv2 : k = v <;> simp [bumpCount, lookupCount, hv2]
    · by_cases hv2 : k = v
      · subst hv2
        have : ¬w = k := fun h => hk h.symm
        simp [bumpCount, hk, lookupCount, this]
      · simp [bumpCount, hk, lookupCount, hv2, ih]

theorem bumpCount_keys (w : String) (m : List (String × ℕ)) :
    (bumpCount w m).map (fun p => p.1) =
      if w ∈ m.map (fun p => p.1) then m.map (fun p => p.1)
      else m.map (fun p => p.1) ++ [w] := by
  induction m with
  | nil => simp [bumpCount]
  | cons hd tl ih =>
    obtain ⟨k, n⟩ := hd
    by_cases hk : k = w
    · subst hk
      simp [bumpCount]
    · have : ¬w = k := fun h => hk h.symm
      by_cases hw : w ∈ tl.map fun p => p.1 <;>
        simp [bumpCount, hk, this, hw, ih]

theorem assoc_val_eq_lookupCount (m : List (String × ℕ)) :
    (m.map (fun p => p.1)).Nodup → ∀ p ∈ m, p.2 = lookupCount p.1 m := by
  induction m with
  | nil => intro _ p hp; cases hp
  | cons hd tl ih =>
    intro hnd p hp
    obtain ⟨k, n⟩ := hd
    simp only [List.map_cons, List.nodup_cons] at hnd
    rcases List.mem_cons.mp hp with rfl | hp2
    · simp [lookupCount]
    · have hk : ¬k = p.1 := by
        intro h
        exact hnd.1 (h ▸ (List.mem_map.mpr ⟨p, hp2, rfl⟩))
      simp only [lookupCount, if_neg hk]
      exact ih hnd.2 p hp2

theorem mem_of_lookupCount_pos (v : String) (m : List (String × ℕ))
    (h : 0 < lookupCount v m) : (v, lookupCount v m) ∈ m := by
  induction m with
  | nil => simp [lookupCount] at h
  | cons hd tl ih =>
    obtain ⟨k, n⟩ := hd
    by_cases hk : k = v
    · subst hk
      simp [lookupCount]
    · simp only [lookupCount, if_neg hk] at h ⊢
      exact List.mem_cons_of_mem _ (ih h)

theorem mostCommonKey_strict_max (entries : List (String × ℕ)) (v : String) (c : ℕ)
    (hmem : (v, c) ∈ entries) (hmax : ∀ p ∈ entries, p.1 ≠ v → p.2 < c) (hv : v ≠ "")
    (fb : String) : mostCommonKey entries fb = v := by
  haveI : IsTotal (String × ℕ) (fun a b : String × ℕ => b.2 ≤ a.2) :=
    ⟨fun a b => (le_total b.2 a.2).elim Or.inl Or.inr⟩
  haveI : IsTrans (String × ℕ) (fun a b : String × ℕ => b.2 ≤ a.2) :=
    ⟨fun _ _ _ h1 h2 => le_trans h2 h1⟩
  have hperm := List.perm_insertionSort (fun a b : String × ℕ => b.2 ≤ a.2) entries
  have hsorted := List.sorted_insertionSort (fun a b : String × ℕ => b.2 ≤ a.2) entries
  cases hs : List.insertionSort (fun a b : String × ℕ => b.2 ≤ a.2) entries with
  | nil =>
    rw [hs] at hperm
    exact absurd (hperm.mem_iff.mpr hmem) (List.not_mem_nil _)
  | cons h t =>
    rw [hs] at hperm hsorted
    have hh : h ∈ entries := hperm.mem_iff.mp (List.mem_cons_self h t)
    have hhead : ∀ x ∈ t, x.2 ≤ h.2 := (List.pairwise_cons.mp hsorted).1
    have hv2 : h.1 = v := by
      rcases List.mem_cons.mp (hperm.mem_iff.mpr hmem) with heq | hmem2
      · rw [← heq]
      · by_contra hne
        exact absurd (hhead _ hmem2) (not_le.mpr (hmax h hh hne))
    rw [mostCommonKey, hs]
    simp only [List.head?_cons]
    rw [hv2, jsOr, if_neg hv]

theorem bumpPracticeAcc_name (a : PracticeAcc) (d : Dispute) :
    (bumpPracticeAcc a d).name = a.name := rfl

theorem lookupPractice_upsert (d : Dispute) (m : List PracticeAcc) (name : String) :
    lookupPractice name (upsertPractice d m) =
      if practiceKeyOf d = name then
        some (match lookupPractice name m with
              | some a => bumpPracticeAcc a d
              | none => initPracticeAcc d)
      else lookupPractice name m := by
  induction m with
  | nil =>
    by_cases h : practiceKeyOf d = name <;>
      simp [upsertPractice, lookupPractice, initPracticeAcc, h]
  | cons a rest ih =>
    by_cases ha : a.name = practiceKeyOf d
    · by_cases hn : practiceKeyOf d = name
      · have han : a.name = name := ha.trans hn
        simp [upsertPractice, ha, lookupPractice, bumpPracticeAcc_name, han, hn]
      · have han : ¬a.name = name := fun h => hn (ha ▸ h)
        simp [upsertPractice, ha, lookupPractice, bumpPracticeAcc_name, han, hn]
    · by_cases han : a.name = name
      · have hn : ¬practiceKeyOf d = name := fun h => ha (han ▸ h.symm ▸ rfl)
        have hn2 : ¬name = practiceKeyOf d := fun h => hn h.symm
        simp [upsertPractice, ha, lookupPractice, han, hn, hn2]
      · simp [upsertPractice, ha, lookupPractice, han, ih]

theorem attr_count_upsert (g : Dispute → Option String) (sel : PracticeAcc → List (String × ℕ))
    (hinit : ∀ d, sel (initPracticeAcc d) = bumpCountIfTruthy (g d) [])
    (hbump : ∀ a d, sel (bumpPracticeAcc a d) = bumpCountIfTruthy (g d) (sel a))
    (d : Dispute) (m : List PracticeAcc) (name v : String) (hv : v ≠ "") :
    ((lookupPractice name (upsertPractice d m)).map (fun a => lookupCount v (sel a))).getD 0 =
      ((lookupPractice name m).map (fun a => lookupCount v (sel a))).getD 0 +
        (if practiceKeyOf d = name ∧ g d = some v then 1 else 0) := by
  rw [lookupPractice_upsert]
  by_cases h : practiceKeyOf d = name
  · rw [if_pos h]
    cases hm : lookupPractice name m with
    | none =>
      simp only [Option.map_some', Option.getD_some, Option.map_none', Option.getD_none,
        Nat.zero_add, hinit]
      cases hd : g d with
      | none => simp [bumpCountIfTruthy, lookupCount, h]
      | some s =>
        by_cases hs : s = ""
        · subst hs
          have hnv : ¬("" = v) := fun hh => hv hh.symm
          simp [bumpCountIfTruthy, lookupCount, h, hnv]
        · by_cases hsv : s = v
          · subst hsv
            simp [bumpCountIfTruthy, hs, bumpCount, lookupCount, h]
          · simp [bumpCountIfTruthy, hs, bumpCount, lookupCount, hsv, h]
    | some a =>
      simp only [Option.map_some', Option.getD_some, hbump]
      cases hd : g d with
      | none => simp [bumpCountIfTruthy, h]
      | some s =>
        by_cases hs : s = ""
        · subst hs
          have hnv : ¬("" = v) := fun hh => hv hh.symm
          simp [bumpCountIfTruthy, h, hnv]
        · by_cases hsv : s = v <;>
            simp [bumpCountIfTruthy, hs, lookupCount_bumpCount, hsv, h, hv]
  · rw [if_neg h]
    simp [h]

theorem attr_count_foldl (g : Dispute → Option String) (sel : PracticeAcc → List (String × ℕ))
    (hinit : ∀ d, sel (initPracticeAcc d) = bumpCountIfTruthy (g d) [])
    (hbump : ∀ a d, sel (bumpPracticeAcc a d) = bumpCountIfTruthy (g d) (sel a))
    (rows : List Dispute) (m : List PracticeAcc) (name v : String) (hv : v ≠ "") :
    ((lookupPractice name (rows.foldl (fun a d => upsertPractice d a) m)).map
        (fun a => lookupCount v (sel a))).getD 0 =
      ((lookupPractice name m).map (fun a => lookupCount v (sel a))).getD 0 +
        countAttr g rows name v := by
  induction rows generalizing m with
  | nil => simp [countAttr]
  | cons d tl ih =>
    simp only [List.foldl_cons, countAttr, List.countP_cons] at ih ⊢
    rw [ih (upsertPractice d m), attr_count_upsert g sel hinit hbump d m name v hv]
    by_cases h1 : practiceKeyOf d = name <;> by_cases h2 : g d = some v <;>
      simp [h1, h2] <;> omega

theorem attr_count_map (g : Dispute → Option String) (sel : PracticeAcc → List (String × ℕ))
    (hinit : ∀ d, sel (initPracticeAcc d) = bumpCountIfTruthy (g d) [])
    (hbump : ∀ a d, sel (bumpPracticeAcc a d) = bumpCountIfTruthy (g d) (sel a))
    (rows : List Dispute) (name v : String) (hv : v ≠ "") :
    ((lookupPractice name (practiceMap rows)).map (fun a => lookupCount v (sel a))).getD 0 =
      countAttr g rows name v := by
  have h := attr_count_foldl g sel hinit hbump rows [] name v hv
  simpa [lookupPractice, practiceMap] using h

theorem bumpCountIfTruthy_good (o : Option String) (m : List (String × ℕ))
    (h1 : (m.map (fun p => p.1)).Nodup) (h2 : ∀ k ∈ m.map (fun p => p.1), k ≠ "") :
    ((bumpCountIfTruthy o m).map (fun p => p.1)).Nodup ∧
      ∀ k ∈ (bumpCountIfTruthy o m).map (fun p => p.1), k ≠ "" := by
  cases o with
  | none => exact ⟨h1, h2⟩
  | some s =>
    by_cases hs : s = ""
    · simp only [bumpCountIfTruthy, if_pos hs]
      exact ⟨h1, h2⟩
    · simp only [bumpCountIfTruthy, if_neg hs, bumpCount_keys]
      by_cases hmem : s ∈ m.map fun p => p.1
      · rw [if_pos hmem]
        exact ⟨h1, h2⟩
      · rw [if_neg hmem]
        constructor
        · simp [List.nodup_append, h1, hmem]
        · intro k hk
          rcases List.mem_append.mp hk with hk | hk
          · exact h2 k hk
          · simp only [List.mem_singleton] at hk
            exact hk ▸ hs

theorem upsertPractice_pred (P : PracticeAcc → Prop)
    (hinit : ∀ d, P (initPracticeAcc d))
    (hbump : ∀ a d, P a → P (bumpPracticeAcc a d)) :
    ∀ (d : Dispute) (m : List PracticeAcc), (∀ a ∈ m, P a) → ∀ a ∈ upsertPractice d m, P a := by
  intro d m
  induction m with
  | nil =>
    intro _ a ha
    simp only [upsertPractice, List.mem_singleton] at ha
    exact ha ▸ hinit d
  | cons b rest ih =>
    intro hm a ha
    by_cases hb : b.name = practiceKeyOf d
    · simp only [upsertPractice, if_pos hb, List.mem_cons] at ha
      rcases ha with rfl | ha
      · exact hbump b d (hm b (by simp))
      · exact hm a (List.mem_cons_of_mem _ ha)
    · simp only [upsertPractice, if_neg hb, List.mem_cons] at ha
      rcases ha with rfl | ha
      · exact hm _ (by simp)
      · exact ih (fun x hx => hm x (List.mem_cons_of_mem _ hx)) a ha

theorem practiceMap_pred (P : PracticeAcc → Prop)
    (hinit : ∀ d, P (initPracticeAcc d))
    (hbump : ∀ a d, P a → P (bumpPracticeAcc a d)) (rows : List Dispute) :
    ∀ a ∈ practiceMap rows, P a := by
  have main : ∀ (rs : List Dispute) (m : List PracticeAcc), (∀ a ∈ m, P a) →
      ∀ a ∈ rs.foldl (fun acc d => upsertPractice d acc) m, P a := by
    intro rs
    induction rs with
    | nil => intro m hm; simpa using hm
    | cons d tl ih =>
      intro m hm
      simp only [List.foldl_cons]
      exact ih _ (upsertPractice_pred P hinit hbump d m hm)
  exact main rows [] (by simp)

theorem practiceAcc_good (rows : List Dispute) :
    ∀ a ∈ practiceMap rows,
      (((a.specialtyCount.map (fun p => p.1)).Nodup ∧
          ∀ k ∈ a.specialtyCount.map (fun p => p.1), k ≠ "") ∧
       ((a.locationCount.map (fun p => p.1)).Nodup ∧
          ∀ k ∈ a.locationCount.map (fun p => p.1), k ≠ "") ∧
       ((a.sizeCount.map (fun p => p.1)).Nodup ∧
          ∀ k ∈ a.sizeCount.map (fun p => p.1), k ≠ "")) := by
  apply practiceMap_pred
  · intro d
    exact ⟨bumpCountIfTruthy_good _ [] (by simp) (by simp),
      bumpCountIfTruthy_good _ [] (by simp) (by simp),
      bumpCountIfTruthy_good _ [] (by simp) (by simp)⟩
  · rintro a d ⟨hs, hl, hz⟩
    exact ⟨bumpCountIfTruthy_good _ _ hs.1 hs.2,
      bumpCountIfTruthy_good _ _ hl.1 hl.2,
      bumpCountIfTruthy_good _ _ hz.1 hz.2⟩

theorem upsertPractice_names (d : Dispute) (m : List PracticeAcc) :
    (upsertPractice d m).map (fun a => a.name) =
      if practiceKeyOf d ∈ m.map (fun a => a.name) then m.map (fun a => a.name)
      else m.map (fun a => a.name) ++ [practiceKeyOf d] := by
  induction m with
  | nil => simp [upsertPractice, initPracticeAcc]
  | cons b rest ih =>
    by_cases hb : b.name = practiceKeyOf d
    · simp [upsertPractice, hb, bumpPracticeAcc_name]
    · have hb2 : ¬practiceKeyOf d = b.name := fun h => hb h.symm
      by_cases hmem : practiceKeyOf d ∈ rest.map fun a => a.name <;>
        simp [upsertPractice, hb, hb2, hmem, ih]

theorem practiceMap_names_nodup (rows : List Dispute) :
    ((practiceMap rows).map (fun a => a.name)).Nodup := by
  have main : ∀ (rs : List Dispute) (m : List PracticeAcc),
      (m.map (fun a => a.name)).Nodup →
      ((rs.foldl (fun acc d => upsertPractice d acc) m).map (fun a => a.name)).Nodup := by
    intro rs
    induction rs with
    | nil => intro m hm; simpa using hm
    | cons d tl ih =>
      intro m hm
      simp only [List.foldl_cons]
      apply ih
      rw [upsertPractice_names]
      by_cases hmem : practiceKeyOf d ∈ m.map fun a => a.name
      · rwa [if_pos hmem]
      · rw [if_neg hmem]
        simp [List.nodup_append, hm, hmem]
  exact main rows [] (by simp)

theorem lookupPractice_first (m : List PracticeAcc)
    (hnd : (m.map (fun a => a.name)).Nodup) (a : PracticeAcc) (ha : a ∈ m) :
    lookupPractice a.name m = some a := by
  induction m with
  | nil => cases ha
  | cons b rest ih =>
    simp only [List.map_cons, List.nodup_cons] at hnd
    rcases List.mem_cons.mp ha with rfl | ha2
    · simp [lookupPractice]
    · have hb : ¬b.name = a.name := by
        intro h
        exact hnd.1 (h ▸ List.mem_map.mpr ⟨a, ha2, rfl⟩)
      simp only [lookupPractice, if_neg hb]
      exact ih hnd.2 ha2

/-- C9: every returned practice candidate's displayed specialty, state
and size are resolved by mode: whenever a non-empty value `v` is
strictly more frequent (among the entity's matching records) than every
other value occurring in the rows, the candidate displays `v` — never
merely the first or last record's value. -/
theorem practice_search_mode (rows : List Dispute) (limit : ℕ) (p : PracticeCandidate)
    (hp : p ∈ searchPractices rows limit) :
    (∀ v c, v ≠ "" → 0 < c →
      countAttr (fun d => d.practice_facility_specialty) rows p.name v = c →
      (∀ w ∈ rows.filterMap (fun d => d.practice_facility_specialty), w ≠ v →
        countAttr (fun d => d.practice_facility_specialty) rows p.name w < c) →
      p.specialty = v) ∧
    (∀ v c, v ≠ "" → 0 < c →
      countAttr (fun d => d.location_of_service) rows p.name v = c →
      (∀ w ∈ rows.filterMap (fun d => d.location_of_service), w ≠ v →
        countAttr (fun d => d.location_of_service) rows p.name w < c) →
      p.location = v) ∧
    (∀ v c, v ≠ "" → 0 < c →
      countAttr (fun d => d.practice_facility_size) rows p.name v = c →
      (∀ w ∈ rows.filterMap (fun d => d.practice_facility_size), w ≠ v →
        countAttr (fun d => d.practice_facility_size) rows p.name w < c) →
      p.size = v) := by
  unfold searchPractices at hp
  have hmem := (List.take_sublist limit _).mem hp
  have hp1 := (List.perm_insertionSort
    (fun a b : PracticeCandidate => b.disputeCount ≤ a.disputeCount) _).mem_iff.mp hmem
  obtain ⟨a, ha, rfl⟩ := List.mem_map.mp hp1
  have hla : lookupPractice a.name (practiceMap rows) = some a :=
    lookupPractice_first _ (practiceMap_names_nodup rows) a ha
  have hgood := practiceAcc_good rows a ha
  have key : ∀ (g : Dispute → Option String) (sel : PracticeAcc → List (String × ℕ)),
      (∀ d, sel (initPracticeAcc d) = bumpCountIfTruthy (g d) []) →
      (∀ b d, sel (bumpPracticeAcc b d) = bumpCountIfTruthy (g d) (sel b)) →
      ((sel a).map (fun q => q.1)).Nodup →
      (∀ k ∈ (sel a).map (fun q => q.1), k ≠ "") →
      ∀ (fb v : String) (c : ℕ), v ≠ "" → 0 < c →
        countAttr g rows a.name v = c →
        (∀ w ∈ rows.filterMap g, w ≠ v → countAttr g rows a.name w < c) →
        mostCommonKey (sel a) fb = v := by
    intro g sel hinit hbump hnd hne fb v c hv hc hcount hmax
    have h : lookupCount v (sel a) = c := by
      have h := attr_count_map g sel hinit hbump rows a.name v hv
      rw [hla] at h
      simp only [Option.map_some', Option.getD_some] at h
      rw [hcount] at h
      exact h
    have hmem2 : (v, c) ∈ sel a := by
      have hm := mem_of_lookupCount_pos v (sel a) (by rw [h]; exact hc)
      rwa [h] at hm
    have hmaxpt : ∀ q ∈ sel a, q.1 ≠ v → q.2 < c := by
      intro q hq hqv
      have hval : q.2 = lookupCount q.1 (sel a) :=
        assoc_val_eq_lookupCount (sel a) hnd q hq
      have hq1 : q.1 ≠ "" := hne q.1 (List.mem_map.mpr ⟨q, hq, rfl⟩)
      have hcq : lookupCount q.1 (sel a) = countAttr g rows a.name q.1 := by
        have h2 := attr_count_map g sel hinit hbump rows a.name q.1 hq1
        rw [hla] at h2
        simpa using h2
      rcases Nat.eq_zero_or_pos (countAttr g rows a.name q.1) with h0 | hpos
      · omega
      · obtain ⟨d, hd, hpd⟩ := List.countP_pos_iff.mp hpos
        have hgd : g d = some q.1 := by
          simp only [Bool.and_eq_true, beq_iff_eq] at hpd
          exact hpd.2
        have hwmem : q.1 ∈ rows.filterMap g := List.mem_filterMap.mpr ⟨d, hd, hgd⟩
        have := hmax q.1 hwmem hqv
        omega
    exact mostCommonKey_strict_max (sel a) v c hmem2 hmaxpt hv fb
  refine ⟨?_, ?_, ?_⟩
  · intro v c hv hc hcount hmax
    exact key (fun d => d.practice_facility_specialty) (fun b => b.specialtyCount)
      (fun _ => rfl) (fun _ _ => rfl) hgood.1.1 hgood.1.2 a.specialty v c hv hc hcount hmax
  · intro v c hv hc hcount hmax
    exact key (fun d => d.location_of_service) (fun b => b.locationCount)
      (fun _ => rfl) (fun _ _ => rfl) hgood.2.1.1 hgood.2.1.2 a.location v c hv hc hcount hmax
  · intro v c hv hc hcount hmax
    exact key (fun d => d.practice_facility_size) (fun b => b.sizeCount)
      (fun _ => rfl) (fun _ _ => rfl) hgood.2.2.1 hgood.2.2.2 a.size v c hv hc hcount hmax

/-- Witness for C9 (Scenario D): three `General Hospital` rows — two
Cardiology/TX, one Radiology/NY, all size Small — resolve to specialty
Cardiology, state TX and size Small. -/
theorem practice_search_mode_witness :
    generalCandidate.specialty = "Cardiology" ∧
    generalCandidate.location = "TX" ∧
    generalCandidate.size = "Small" := by
  have hp : generalCandidate ∈ searchPractices generalRows 20 := by decide
  have h := practice_search_mode generalRows 20 generalCandidate hp
  exact ⟨h.1 "Cardiology" 2 (by decide) (by decide) (by decide) (by decide),
    h.2.1 "TX" 2 (by decide) (by decide) (by decide) (by decide),
    h.2.2 "Small" 3 (by decide) (by decide) (by decide) (by decide)⟩
